import Mathlib

/-!
Shallow embedding of the noPoll context / connection registry
(`nopoll_ctx.c`: `nopoll_ctx_new`, `nopoll_ctx_ref`, `nopoll_ctx_unref`,
`nopoll_ctx_register_conn`, `nopoll_ctx_unregister_conn`, `nopoll_ctx_conns`,
`nopoll_ctx_foreach_conn`).

Modelling conventions:
* a `noPollConn *` slot of `ctx->conn_list` is a `Slot := Option Nat`
  (`none` = NULL pointer / tombstone, `some i` = connection with id `i`);
* the `noPollConn **` pointer `ctx->conn_list` itself is
  `Option (List Slot)` (`none` = NULL pointer);
* C `int` fields that the code can drive below zero (`refs`, `conn_num`)
  are `Int`; counters that only grow (`conn_id`) are `Nat`;
* a result of `none` from an operation models undefined behaviour
  (NULL-pointer dereference or out-of-bounds access) — the source contains
  such a path: `nopoll_ctx_unregister_conn` reads
  `ctx->conn_list[iterator]->id` without checking the slot for NULL;
* NULL arguments are modelled by `Option` parameters of the top-level
  functions, mirroring the `nopoll_return_if_fail` guards;
* `nopoll_realloc` success/failure is an explicit `allocOk : Bool`
  parameter; the ghost counter `logs` counts the `nopoll_log` call of the
  failed-growth branch of `nopoll_ctx_register_conn`.
-/

/-- A registered connection. The registry logic reads and writes only the
`id` field of `noPollConn`, so the embedding keeps just that field. -/
structure noPollConn where
  id : Nat
deriving DecidableEq, Repr

/-- One bucket of `ctx->conn_list`: `none` is a NULL pointer (a tombstone),
`some i` is a pointer to a live connection whose `id` is `i`. -/
abbrev Slot := Option Nat

/-- The fields of `struct noPollCtx` touched by `nopoll_ctx.c`.
`conn_list = none` models a NULL `noPollConn **` pointer.  `logs` is a
ghost counter of `nopoll_log (... NOPOLL_LEVEL_CRITICAL ...)` calls made by
`nopoll_ctx_register_conn` when growth allocation fails. -/
structure noPollCtx where
  refs : Int
  conn_id : Nat
  conn_connect_std_timeout : Nat
  not_executed : Bool
  debug_enabled : Bool
  not_executed_color : Bool
  debug_color_enabled : Bool
  backlog : Nat
  conn_length : Nat
  conn_num : Int
  conn_list : Option (List Slot)
  logs : Nat
deriving DecidableEq, Repr

/-- `nopoll_ctx_new` (the successful-allocation case): `nopoll_new` is a
`calloc`, so every field not explicitly assigned (`conn_num`, `conn_list`)
starts zeroed / NULL. -/
def nopoll_ctx_new : noPollCtx :=
  { refs := 1
    conn_id := 1
    conn_connect_std_timeout := 20000000
    not_executed := true
    debug_enabled := false
    not_executed_color := true
    debug_color_enabled := false
    backlog := 5
    conn_length := 0
    conn_num := 0
    conn_list := none
    logs := 0 }

/-- `nopoll_ctx_ref`: NULL context fails with `nopoll_false`
(`nopoll_return_val_if_fail`), otherwise `ctx->refs++` and `nopoll_true`. -/
def nopoll_ctx_ref : Option noPollCtx → Option noPollCtx × Bool
  | none => (none, false)
  | some ctx => (some { ctx with refs := ctx.refs + 1 }, true)

/-- `nopoll_ctx_unref`: NULL context returns; otherwise `ctx->refs--` and,
exactly when the decremented count is 0, the connection list and the
context are freed (`nopoll_free`), modelled by the result `none`. -/
def nopoll_ctx_unref : Option noPollCtx → Option noPollCtx
  | none => none
  | some ctx =>
    let ctx' := { ctx with refs := ctx.refs - 1 }
    if ctx'.refs ≠ 0 then some ctx' else none

/-- The slot table seen as a list (`[]` when `conn_list` is NULL); the C
scans never read it without an index bound, so this is only a shorthand. -/
def slots (ctx : noPollCtx) : List Slot := ctx.conn_list.getD []

/-- The read `ctx->conn_list[iterator]`: `none` models undefined behaviour
(NULL `conn_list` or an index outside the allocation). -/
def readSlot (ctx : noPollCtx) (i : Nat) : Option Slot :=
  ctx.conn_list.bind fun l => l[i]?

/-- The write `ctx->conn_list[iterator] = v` (used only at indexes the scan
has already read, hence inside the allocation). -/
def writeSlot (ctx : noPollCtx) (i : Nat) (v : Slot) : noPollCtx :=
  { ctx with conn_list := ctx.conn_list.map fun l => l.set i v }

/-- The placement loop of `nopoll_ctx_register_conn` (lines 141-157):
`while (iterator < ctx->conn_length)` finds the first NULL bucket, stores
the connection there and does `ctx->conn_num++`.  `fuel` is the number of
remaining iterations (`conn_length - iterator`), so the loop is entered
with `fuel = conn_length` and `iterator = 0`.  Result: `some (some ctx')`
when placed, `some none` when the loop falls through (no free bucket),
`none` on an undefined read. -/
def regScan (cid : Nat) : Nat → Nat → noPollCtx → Option (Option noPollCtx)
  | 0, _, _ => some none
  | fuel + 1, iterator, ctx =>
    match readSlot ctx iterator with
    | none => none
    | some none =>
      let ctx' := writeSlot ctx iterator (some cid)
      some (some { ctx' with conn_num := ctx'.conn_num + 1 })
    | some (some _) => regScan cid fuel (iterator + 1) ctx

/-- Lines 161-162: `ctx->conn_length += 10` followed by a successful
`nopoll_realloc`.  The reallocation preserves the old buckets; the fresh
memory is modelled as zeroed, which is exact because the explicit clearing
loop (`clearLoop` below) overwrites every fresh position whenever the old
table had `conn_length` buckets. -/
def growList (ctx : noPollCtx) : noPollCtx :=
  let n := ctx.conn_length + 10
  let old := (slots ctx).take n
  { ctx with
    conn_length := n
    conn_list := some (old ++ List.replicate (n - old.length) none) }

/-- The clearing loop of lines 168-174: `iterator = conn_length - 10;
while (iterator < conn_length) conn_list[iterator] = 0`.  Entered with
`fuel = 10` and `iterator = conn_length - 10`. -/
def clearLoop : Nat → Nat → noPollCtx → noPollCtx
  | 0, _, ctx => ctx
  | fuel + 1, iterator, ctx => clearLoop fuel (iterator + 1) (writeSlot ctx iterator none)

/-- Body of `nopoll_ctx_register_conn` after the NULL guard (lines
137-181): assign `conn->id = ctx->conn_id; ctx->conn_id++`, scan for a free
bucket; if none, grow by 10 and recurse into the full function (which
assigns a fresh id again).  `allocOk` tells whether the `nopoll_realloc`
succeeds; on failure `conn_list` is the NULL result of `realloc`,
`conn_length` has already been increased, and the critical log fires.
`fuel` bounds the self-recursion (the source recursion is unbounded in
form; after one successful growth the scan always places, so `fuel = 2`
reproduces it exactly); `none` models undefined behaviour. -/
def registerGo : Nat → Bool → noPollCtx → noPollConn → Option (noPollCtx × noPollConn)
  | 0, _, _, _ => none
  | fuel + 1, allocOk, ctx, conn =>
    let conn' := { conn with id := ctx.conn_id }
    let ctx' := { ctx with conn_id := ctx.conn_id + 1 }
    match regScan conn'.id ctx'.conn_length 0 ctx' with
    | none => none
    | some (some ctx'') => some (ctx'', conn')
    | some none =>
      if allocOk then
        registerGo fuel allocOk (clearLoop 10 ctx'.conn_length (growList ctx')) conn'
      else
        some ({ ctx' with
                  conn_length := ctx'.conn_length + 10
                  conn_list := none
                  logs := ctx'.logs + 1 }, conn')

/-- `nopoll_ctx_register_conn`: `nopoll_return_if_fail (ctx, ctx && conn)`
returns immediately (no state change) when either argument is NULL. -/
def nopoll_ctx_register_conn (allocOk : Bool) :
    Option noPollCtx → Option noPollConn → Option (Option noPollCtx × Option noPollConn)
  | some ctx, some conn =>
    (registerGo 2 allocOk ctx conn).map fun p => (some p.1, some p.2)
  | ctx?, conn? => some (ctx?, conn?)

/-- The scan of `nopoll_ctx_unregister_conn` (lines 202-217).  The source
reads `ctx->conn_list[iterator]->id` WITHOUT first checking the bucket for
NULL (contrast the guard `if (ctx->conn_list[iterator])` in
`nopoll_ctx_foreach_conn`): scanning a tombstone bucket dereferences a
NULL pointer, modelled by the result `none`.  On an id match the bucket is
set to NULL and `ctx->conn_num--`; falling through is a no-op. -/
def unregScan (cid : Nat) : Nat → Nat → noPollCtx → Option noPollCtx
  | 0, _, ctx => some ctx
  | fuel + 1, iterator, ctx =>
    match readSlot ctx iterator with
    | none => none
    | some none => none
    | some (some sid) =>
      if sid = cid then
        let ctx' := writeSlot ctx iterator none
        some { ctx' with conn_num := ctx'.conn_num - 1 }
      else unregScan cid fuel (iterator + 1) ctx

/-- `nopoll_ctx_unregister_conn`: NULL guard as in registration; result
`some` is a normal return (with the possibly updated context), `none` is
the NULL dereference described at `unregScan`. -/
def nopoll_ctx_unregister_conn :
    Option noPollCtx → Option noPollConn → Option (Option noPollCtx)
  | some ctx, some conn => (unregScan conn.id ctx.conn_length 0 ctx).map some
  | ctx?, _ => some ctx?

/-- `nopoll_ctx_conns`: -1 for a NULL context, otherwise `ctx->conn_num`. -/
def nopoll_ctx_conns : Option noPollCtx → Int
  | none => -1
  | some ctx => ctx.conn_num

/-- The loop of `nopoll_ctx_foreach_conn` (lines 269-286): non-NULL buckets
are visited in index order; the first one on which the handler returns
`nopoll_true` is returned; falling through returns NULL (`some none`).
Here the bucket IS NULL-checked before use, so tombstones are skipped. -/
def foreachScan {α : Type} (f : noPollCtx → Nat → α → Bool) (ud : α) :
    Nat → Nat → noPollCtx → Option (Option Nat)
  | 0, _, _ => some none
  | fuel + 1, iterator, ctx =>
    match readSlot ctx iterator with
    | none => none
    | some none => foreachScan f ud fuel (iterator + 1) ctx
    | some (some cid) =>
      if f ctx cid ud then some (some cid)
      else foreachScan f ud fuel (iterator + 1) ctx

/-- `nopoll_ctx_foreach_conn`: `nopoll_return_val_if_fail (ctx, ctx &&
foreach, NULL)` returns NULL when the context or the handler is NULL. -/
def nopoll_ctx_foreach_conn {α : Type} :
    Option noPollCtx → Option (noPollCtx → Nat → α → Bool) → α → Option (Option Nat)
  | some ctx, some f, ud => foreachScan f ud ctx.conn_length 0 ctx
  | _, _, _ => some none

/-- Well-formedness of the registry storage: the allocation behind
`conn_list` holds exactly `conn_length` buckets (for a NULL `conn_list`
this forces `conn_length = 0`).  Every context reachable by the successful
operations satisfies it. -/
abbrev WF (ctx : noPollCtx) : Prop := (slots ctx).length = ctx.conn_length

/-- Ids of the live (non-tombstone) buckets, in slot order. -/
def liveIds (ctx : noPollCtx) : List Nat := (slots ctx).filterMap id

/-- Index of the first tombstone bucket of a slot table, if any. -/
def firstFreeIdx : List Slot → Option Nat
  | [] => none
  | none :: _ => some 0
  | some _ :: rest => (firstFreeIdx rest).map (· + 1)

/-- List-level mirror of `regScan` (proof device): place `cid` in the
first free bucket, `none` when there is none. -/
def regScanL (cid : Nat) : List Slot → Option (List Slot)
  | [] => none
  | none :: rest => some (some cid :: rest)
  | some s :: rest => (regScanL cid rest).map (some s :: ·)

/-- List-level mirror of `unregScan` (proof device): outer `none` = NULL
dereference of a tombstone bucket, `some none` = fell through (no match),
`some (some l)` = matched bucket tombstoned. -/
def unregScanL (cid : Nat) : List Slot → Option (Option (List Slot))
  | [] => some none
  | none :: _ => none
  | some sid :: rest =>
    if sid = cid then some (some (none :: rest))
    else (unregScanL cid rest).map (Option.map (some sid :: ·))

/-- List-level mirror of `foreachScan` (proof device). -/
def foreachL (p : Nat → Bool) : List Slot → Option Nat
  | [] => none
  | none :: rest => foreachL p rest
  | some cid :: rest => if p cid then some cid else foreachL p rest

/-- One registry operation, for statements over operation sequences. -/
inductive RegistryOp where
  | register (allocOk : Bool) (conn : noPollConn)
  | unregister (conn : noPollConn)
deriving DecidableEq, Repr

/-- Run one operation; a register additionally reports the id the call
assigned to its connection. -/
def runOp : RegistryOp → noPollCtx → Option (noPollCtx × Option Nat)
  | RegistryOp.register a conn, ctx =>
    (registerGo 2 a ctx conn).map fun p => (p.1, some p.2.id)
  | RegistryOp.unregister conn, ctx =>
    (unregScan conn.id ctx.conn_length 0 ctx).map fun c => (c, none)

/-- Run a sequence of operations, collecting the assigned ids in call
order; `none` as soon as one operation hits undefined behaviour. -/
def runOps : List RegistryOp → noPollCtx → Option (noPollCtx × List Nat)
  | [], ctx => some (ctx, [])
  | op :: ops, ctx =>
    (runOp op ctx).bind fun pc =>
      (runOps ops pc.1).map fun pc' => (pc'.1, pc.2.toList ++ pc'.2)

/-- Contexts reachable from `nopoll_ctx_new` by register / unregister
calls that complete normally, with growth allocations succeeding (the
out-of-memory path is treated separately, at the claim about it). -/
inductive ReachableCtx : noPollCtx → Prop
  | new : ReachableCtx nopoll_ctx_new
  | register (ctx ctx' : noPollCtx) (conn conn' : noPollConn) :
      ReachableCtx ctx → registerGo 2 true ctx conn = some (ctx', conn') →
      ReachableCtx ctx'
  | unregister (ctx ctx' : noPollCtx) (conn : noPollConn) :
      ReachableCtx ctx → unregScan conn.id ctx.conn_length 0 ctx = some ctx' →
      ReachableCtx ctx'

/-- A context whose reference count has already reached zero. -/
def ctxRefsZero : noPollCtx := { nopoll_ctx_new with refs := 0 }

/-- A well-formed two-bucket registry with one live connection (id 4) and a
tombstone at index 1. -/
def ctxOneFree : noPollCtx :=
  { nopoll_ctx_new with
      conn_id := 5
      conn_length := 2
      conn_num := 1
      conn_list := some [some 4, none] }

/-- A well-formed three-bucket registry: live ids 5 and 7 around a
tombstone. -/
def ctxThreeSlots : noPollCtx :=
  { nopoll_ctx_new with
      conn_id := 9
      conn_length := 3
      conn_num := 2
      conn_list := some [some 5, none, some 7] }

/-- The context produced by one registration on a fresh context (growth to
10 buckets, connection id 2 in bucket 0). -/
def ctxOneConn : noPollCtx :=
  { nopoll_ctx_new with
      conn_id := 3
      conn_length := 10
      conn_num := 1
      conn_list := some [some 2, none, none, none, none, none, none, none, none, none] }

/-- The context after register, register, unregister id 2, register on a
fresh context (ids 2, 3, 4 assigned; id 4 reuses bucket 0). -/
def ctxAfterFour : noPollCtx :=
  { nopoll_ctx_new with
      conn_id := 5
      conn_length := 10
      conn_num := 2
      conn_list := some [some 4, some 3, none, none, none, none, none, none, none, none] }

/-! ## Small list facts used by the loop/bridge lemmas -/

theorem drop_cons_getElem? {α : Type} {l : List α} {k : Nat} {s : α} {rest : List α}
    (h : l.drop k = s :: rest) : l[k]? = some s := by
  induction l generalizing k with
  | nil => simp at h
  | cons a l ih =>
    cases k with
    | zero => rw [List.drop_zero] at h; cases h; simp
    | succ k =>
      rw [List.drop_succ_cons] at h
      simpa using ih h

theorem drop_cons_drop {α : Type} {l : List α} {k : Nat} {s : α} {rest : List α}
    (h : l.drop k = s :: rest) : l.drop (k + 1) = rest := by
  induction l generalizing k with
  | nil => simp at h
  | cons a l ih =>
    cases k with
    | zero => rw [List.drop_zero] at h; cases h; simp
    | succ k =>
      rw [List.drop_succ_cons] at h
      simpa using ih h

theorem drop_cons_take {α : Type} {l : List α} {k : Nat} {s : α} {rest : List α}
    (h : l.drop k = s :: rest) : l.take (k + 1) = l.take k ++ [s] := by
  induction l generalizing k with
  | nil => simp at h
  | cons a l ih =>
    cases k with
    | zero => rw [List.drop_zero] at h; cases h; simp
    | succ k =>
      rw [List.drop_succ_cons] at h
      simpa using ih h

theorem drop_cons_set {α : Type} {l : List α} {k : Nat} {s : α} {rest : List α}
    (h : l.drop k = s :: rest) (v : α) : l.set k v = l.take k ++ v :: rest := by
  induction l generalizing k with
  | nil => simp at h
  | cons a l ih =>
    cases k with
    | zero => rw [List.drop_zero] at h; cases h; simp
    | succ k =>
      rw [List.drop_succ_cons] at h
      simpa using ih h

theorem set_getElem?_self {α : Type} {l : List α} {i : Nat} {v : α}
    (h : l[i]? = some v) : l.set i v = l := by
  induction l generalizing i with
  | nil => simp at h
  | cons a l ih =>
    cases i with
    | zero => simp at h; simp [h]
    | succ i =>
      rw [List.getElem?_cons_succ] at h
      simp [ih h]

/-! ## Facts about the list-level mirrors -/

theorem regScanL_eq_firstFree (cid : Nat) (l : List Slot) :
    regScanL cid l = (firstFreeIdx l).map fun i => l.set i (some cid) := by
  induction l with
  | nil => rfl
  | cons s rest ih =>
    cases s with
    | none => simp [regScanL, firstFreeIdx]
    | some sid =>
      simp only [regScanL, firstFreeIdx, ih, Option.map_map]
      cases firstFreeIdx rest <;> simp

theorem firstFreeIdx_getElem {l : List Slot} {i : Nat}
    (h : firstFreeIdx l = some i) : l[i]? = some none := by
  induction l generalizing i with
  | nil => simp [firstFreeIdx] at h
  | cons s rest ih =>
    cases s with
    | none =>
      simp [firstFreeIdx] at h
      simp [← h]
    | some sid =>
      simp only [firstFreeIdx, Option.map_eq_some'] at h
      obtain ⟨j, hj, rfl⟩ := h
      rw [List.getElem?_cons_succ]
      exact ih hj

theorem regScanL_append_free {l : List Slot} (h : firstFreeIdx l = none)
    (cid : Nat) (rest : List Slot) :
    regScanL cid (l ++ none :: rest) = some (l ++ some cid :: rest) := by
  induction l with
  | nil => simp [regScanL]
  | cons s l ih =>
    cases s with
    | none => simp [firstFreeIdx] at h
    | some sid =>
      simp only [firstFreeIdx, Option.map_eq_none'] at h
      simp [regScanL, ih h]

theorem filterMap_set_some {l : List Slot} {i : Nat}
    (h : l[i]? = some none) (v : Nat) :
    ((l.set i (some v)).filterMap id).length = (l.filterMap id).length + 1 := by
  induction l generalizing i with
  | nil => simp at h
  | cons s rest ih =>
    cases i with
    | zero =>
      simp at h
      subst h
      simp
    | succ i =>
      rw [List.getElem?_cons_succ] at h
      cases s <;> simp [ih h]

theorem unregScanL_spec {cid : Nat} {l l' : List Slot}
    (h : unregScanL cid l = some (some l')) :
    l'.length = l.length ∧
      (l'.filterMap id).length + 1 = (l.filterMap id).length := by
  induction l generalizing l' with
  | nil => simp [unregScanL] at h
  | cons s rest ih =>
    cases s with
    | none => simp [unregScanL] at h
    | some sid =>
      by_cases hc : sid = cid
      · simp [unregScanL, hc] at h
        subst h
        simp
      · simp only [unregScanL, if_neg hc, Option.map_eq_some'] at h
        obtain ⟨r, hr, hr'⟩ := h
        cases r with
        | none => simp at hr'
        | some r =>
          simp only [Option.map_some', Option.some.injEq] at hr'
          obtain ⟨a, rfl, rfl⟩ := hr'
          obtain ⟨h1, h2⟩ := ih hr
          constructor
          · simp [h1]
          · simp [← h2]

theorem foreachL_eq_find? (p : Nat → Bool) (l : List Slot) :
    foreachL p l = (l.filterMap id).find? p := by
  induction l with
  | nil => rfl
  | cons s rest ih =>
    cases s with
    | none => simpa [foreachL] using ih
    | some cid =>
      by_cases hp : p cid
      · simp [foreachL, hp, List.find?_cons_of_pos]
      · simp [foreachL, hp, List.find?_cons_of_neg, ih]

/-! ## Bridges: the indexed C loops against the list-level mirrors -/

theorem regScan_bridge (cid : Nat) (l : List Slot) (ctx : noPollCtx)
    (hl : ctx.conn_list = some l) :
    ∀ (rest : List Slot) (k : Nat), l.drop k = rest →
      regScan cid rest.length k ctx =
        match regScanL cid rest with
        | none => some none
        | some rest' => some (some { ctx with
            conn_num := ctx.conn_num + 1
            conn_list := some (l.take k ++ rest') }) := by
  intro rest
  induction rest with
  | nil => intro k _; rfl
  | cons s rest ih =>
    intro k hk
    have hread : readSlot ctx k = some s := by
      simp [readSlot, hl, drop_cons_getElem? hk]
    cases s with
    | none =>
      simp only [List.length_cons, regScan, hread, regScanL]
      rw [show writeSlot ctx k (some cid) =
            { ctx with conn_list := some (l.take k ++ some cid :: rest) } by
          simp [writeSlot, hl, drop_cons_set hk]]
    | some sid =>
      have hk' : l.drop (k + 1) = rest := drop_cons_drop hk
      simp only [List.length_cons, regScan, hread, regScanL]
      rw [ih (k + 1) hk']
      cases hsc : regScanL cid rest with
      | none => rfl
      | some rest' =>
        simp only [Option.map_some']
        rw [drop_cons_take hk, List.append_assoc]
        rfl

theorem unregScan_bridge (cid : Nat) (l : List Slot) (ctx : noPollCtx)
    (hl : ctx.conn_list = some l) :
    ∀ (rest : List Slot) (k : Nat), l.drop k = rest →
      unregScan cid rest.length k ctx =
        match unregScanL cid rest with
        | none => none
        | some none => some ctx
        | some (some rest') => some { ctx with
            conn_num := ctx.conn_num - 1
            conn_list := some (l.take k ++ rest') } := by
  intro rest
  induction rest with
  | nil => intro k _; rfl
  | cons s rest ih =>
    intro k hk
    have hread : readSlot ctx k = some s := by
      simp [readSlot, hl, drop_cons_getElem? hk]
    cases s with
    | none => simp [unregScan, hread, unregScanL]
    | some sid =>
      have hk' : l.drop (k + 1) = rest := drop_cons_drop hk
      by_cases hc : sid = cid
      · simp only [List.length_cons, unregScan, hread, if_pos hc, unregScanL]
        rw [show writeSlot ctx k none =
              { ctx with conn_list := some (l.take k ++ none :: rest) } by
            simp [writeSlot, hl, drop_cons_set hk]]
      · simp only [List.length_cons, unregScan, hread, if_neg hc, unregScanL]
        rw [ih (k + 1) hk']
        cases hsc : unregScanL cid rest with
        | none => rfl
        | some r =>
          cases r with
          | none => rfl
          | some rest' =>
            simp only [Option.map_some']
            rw [drop_cons_take hk, List.append_assoc]
            rfl

theorem foreachScan_bridge {α : Type} (f : noPollCtx → Nat → α → Bool) (ud : α)
    (l : List Slot) (ctx : noPollCtx) (hl : ctx.conn_list = some l) :
    ∀ (rest : List Slot) (k : Nat), l.drop k = rest →
      foreachScan f ud rest.length k ctx =
        some (foreachL (fun cid => f ctx cid ud) rest) := by
  intro rest
  induction rest with
  | nil => intro k _; rfl
  | cons s rest ih =>
    intro k hk
    have hread : readSlot ctx k = some s := by
      simp [readSlot, hl, drop_cons_getElem? hk]
    have hk' : l.drop (k + 1) = rest := drop_cons_drop hk
    cases s with
    | none =>
      simp only [List.length_cons, foreachScan, hread, foreachL]
      exact ih (k + 1) hk'
    | some cid =>
      by_cases hp : f ctx cid ud
      · simp [foreachScan, hread, foreachL, hp]
      · simp only [List.length_cons, foreachScan, hread, foreachL, hp,
          if_neg, Bool.false_eq_true, not_false_eq_true]
        exact ih (k + 1) hk'

/-! ## Top-level loop characterizations on well-formed contexts -/

theorem regScan_top (cid : Nat) (ctx : noPollCtx) (hWF : WF ctx) :
    regScan cid ctx.conn_length 0 ctx =
      match regScanL cid (slots ctx) with
      | none => some none
      | some l' => some (some { ctx with
          conn_num := ctx.conn_num + 1
          conn_list := some l' }) := by
  cases hcl : ctx.conn_list with
  | none =>
    have h0 : ctx.conn_length = 0 := by
      have := hWF; simp [WF, slots, hcl] at this; omega
    simp [h0, regScan, slots, hcl, regScanL]
  | some l =>
    have hlen : l.length = ctx.conn_length := by
      simpa [WF, slots, hcl] using hWF
    have hs : slots ctx = l := by simp [slots, hcl]
    rw [hs]
    conv_lhs => rw [← hlen]
    have := regScan_bridge cid l ctx hcl l 0 (by simp)
    simpa using this

theorem unregScan_top (cid : Nat) (ctx : noPollCtx) (hWF : WF ctx) :
    unregScan cid ctx.conn_length 0 ctx =
      match unregScanL cid (slots ctx) with
      | none => none
      | some none => some ctx
      | some (some l') => some { ctx with
          conn_num := ctx.conn_num - 1
          conn_list := some l' } := by
  cases hcl : ctx.conn_list with
  | none =>
    have h0 : ctx.conn_length = 0 := by
      have := hWF; simp [WF, slots, hcl] at this; omega
    simp [h0, unregScan, slots, hcl, unregScanL]
  | some l =>
    have hlen : l.length = ctx.conn_length := by
      simpa [WF, slots, hcl] using hWF
    have hs : slots ctx = l := by simp [slots, hcl]
    rw [hs]
    conv_lhs => rw [← hlen]
    have := unregScan_bridge cid l ctx hcl l 0 (by simp)
    simpa using this

theorem foreachScan_top {α : Type} (f : noPollCtx → Nat → α → Bool) (ud : α)
    (ctx : noPollCtx) (hWF : WF ctx) :
    foreachScan f ud ctx.conn_length 0 ctx =
      some ((liveIds ctx).find? fun cid => f ctx cid ud) := by
  cases hcl : ctx.conn_list with
  | none =>
    have h0 : ctx.conn_length = 0 := by
      have := hWF; simp [WF, slots, hcl] at this; omega
    simp [h0, foreachScan, liveIds, slots, hcl]
  | some l =>
    have hlen : l.length = ctx.conn_length := by
      simpa [WF, slots, hcl] using hWF
    have hs : slots ctx = l := by simp [slots, hcl]
    conv_lhs => rw [← hlen]
    rw [foreachScan_bridge f ud l ctx hcl l 0 (by simp)]
    simp only [liveIds, hs, foreachL_eq_find?]

/-! ## The growth path of registration -/

theorem writeSlot_id {ctx : noPollCtx} {i : Nat} {s : Slot}
    (h : readSlot ctx i = some s) : writeSlot ctx i s = ctx := by
  cases hcl : ctx.conn_list with
  | none => simp [readSlot, hcl] at h
  | some l =>
    have hg : l[i]? = some s := by simpa [readSlot, hcl] using h
    have hset : l.set i s = l := set_getElem?_self hg
    simp only [writeSlot, hcl, Option.map_some']
    rw [hset, ← hcl]

theorem clearLoop_id : ∀ (fuel start : Nat) (ctx : noPollCtx),
    (∀ j, j < fuel → readSlot ctx (start + j) = some none) →
    clearLoop fuel start ctx = ctx
  | 0, _, _, _ => rfl
  | fuel + 1, start, ctx, h => by
    have h0 : readSlot ctx start = some none := by
      simpa using h 0 (Nat.succ_pos fuel)
    rw [clearLoop, writeSlot_id h0]
    refine clearLoop_id fuel (start + 1) ctx fun j hj => ?_
    have e : start + (j + 1) = start + 1 + j := by omega
    have := h (j + 1) (by omega)
    rwa [e] at this

theorem growClear_spec (ctx : noPollCtx) (hWF : WF ctx) :
    clearLoop 10 ctx.conn_length (growList ctx) =
      { ctx with
          conn_length := ctx.conn_length + 10
          conn_list := some (slots ctx ++ List.replicate 10 none) } := by
  have hlen : (slots ctx).length = ctx.conn_length := hWF
  have htake : (slots ctx).take (ctx.conn_length + 10) = slots ctx :=
    List.take_of_length_le (by omega)
  have hg : growList ctx =
      { ctx with
          conn_length := ctx.conn_length + 10
          conn_list := some (slots ctx ++ List.replicate 10 none) } := by
    simp only [growList, htake, hlen, Nat.add_sub_cancel_left]
  rw [hg]
  refine clearLoop_id 10 ctx.conn_length _ fun j hj => ?_
  have hle : (slots ctx).length ≤ ctx.conn_length + j := by omega
  have e : ctx.conn_length + j - (slots ctx).length = j := by omega
  show (slots ctx ++ List.replicate 10 none)[ctx.conn_length + j]? = some none
  rw [List.getElem?_append_right hle, e, List.getElem?_replicate]
  simp [hj]

theorem registerGo_succ (fuel : Nat) (allocOk : Bool) (ctx : noPollCtx)
    (conn : noPollConn) :
    registerGo (fuel + 1) allocOk ctx conn =
      match regScan ctx.conn_id
          ({ ctx with conn_id := ctx.conn_id + 1 } : noPollCtx).conn_length 0
          { ctx with conn_id := ctx.conn_id + 1 } with
      | none => none
      | some (some ctx'') => some (ctx'', { conn with id := ctx.conn_id })
      | some none =>
        if allocOk then
          registerGo fuel allocOk
            (clearLoop 10 ({ ctx with conn_id := ctx.conn_id + 1 } : noPollCtx).conn_length
              (growList { ctx with conn_id := ctx.conn_id + 1 }))
            { conn with id := ctx.conn_id }
        else
          some ({ ctx with
                    conn_id := ctx.conn_id + 1
                    conn_length := ctx.conn_length + 10
                    conn_list := none
                    logs := ctx.logs + 1 }, { conn with id := ctx.conn_id }) := rfl

theorem set_append_length {α : Type} (l : List α) (a v : α) (rest : List α) :
    (l ++ a :: rest).set l.length v = l ++ v :: rest := by
  induction l with
  | nil => simp
  | cons x l ih => simp [ih]

theorem firstFreeIdx_append_free {l : List Slot} (hf : firstFreeIdx l = none)
    (rest : List Slot) :
    firstFreeIdx (l ++ none :: rest) = some l.length := by
  induction l with
  | nil => simp [firstFreeIdx]
  | cons s l ih =>
    cases s with
    | none => simp [firstFreeIdx] at hf
    | some sid =>
      simp only [firstFreeIdx, Option.map_eq_none'] at hf
      simp [firstFreeIdx, ih hf]

theorem registerGo_place (allocOk : Bool) (n : Nat) (hn : n ≠ 0) (c : noPollCtx)
    (conn : noPollConn) (i : Nat) (hWF : WF c)
    (hf : firstFreeIdx (slots c) = some i) :
    registerGo n allocOk c conn =
      some ({ c with
                conn_id := c.conn_id + 1
                conn_num := c.conn_num + 1
                conn_list := some ((slots c).set i (some c.conn_id)) },
            { conn with id := c.conn_id }) := by
  obtain ⟨m, rfl⟩ := Nat.exists_eq_succ_of_ne_zero hn
  rw [registerGo_succ, regScan_top c.conn_id { c with conn_id := c.conn_id + 1 } hWF,
    show slots { c with conn_id := c.conn_id + 1 } = slots c from rfl,
    regScanL_eq_firstFree, hf]
  rfl

theorem registerGo_grow_fail (n : Nat) (hn : n ≠ 0) (c : noPollCtx)
    (conn : noPollConn) (hWF : WF c) (hf : firstFreeIdx (slots c) = none) :
    registerGo n false c conn =
      some ({ c with
                conn_id := c.conn_id + 1
                conn_length := c.conn_length + 10
                conn_list := none
                logs := c.logs + 1 },
            { conn with id := c.conn_id }) := by
  obtain ⟨m, rfl⟩ := Nat.exists_eq_succ_of_ne_zero hn
  rw [registerGo_succ, regScan_top c.conn_id { c with conn_id := c.conn_id + 1 } hWF,
    show slots { c with conn_id := c.conn_id + 1 } = slots c from rfl,
    regScanL_eq_firstFree, hf]
  rfl

theorem registerGo_grow_step (fuel : Nat) (c : noPollCtx) (conn : noPollConn)
    (hWF : WF c) (hf : firstFreeIdx (slots c) = none) :
    registerGo (fuel + 1) true c conn =
      registerGo fuel true
        { c with
            conn_id := c.conn_id + 1
            conn_length := c.conn_length + 10
            conn_list := some (slots c ++ List.replicate 10 none) }
        { conn with id := c.conn_id } := by
  rw [registerGo_succ, regScan_top c.conn_id { c with conn_id := c.conn_id + 1 } hWF,
    show slots { c with conn_id := c.conn_id + 1 } = slots c from rfl,
    regScanL_eq_firstFree, hf, Option.map_none']
  show registerGo fuel true
      (clearLoop 10 ({ c with conn_id := c.conn_id + 1 } : noPollCtx).conn_length
        (growList { c with conn_id := c.conn_id + 1 })) { conn with id := c.conn_id } = _
  rw [growClear_spec { c with conn_id := c.conn_id + 1 } hWF]
  rfl

theorem registerGo_grow_succeed (c : noPollCtx) (conn : noPollConn)
    (hWF : WF c) (hf : firstFreeIdx (slots c) = none) :
    registerGo 2 true c conn =
      some ({ c with
                conn_id := c.conn_id + 2
                conn_length := c.conn_length + 10
                conn_num := c.conn_num + 1
                conn_list := some (slots c ++ some (c.conn_id + 1) :: List.replicate 9 none) },
            { conn with id := c.conn_id + 1 }) := by
  rw [show (2 : Nat) = 1 + 1 from rfl, registerGo_grow_step 1 c conn hWF hf]
  have hlen : (slots c).length = c.conn_length := hWF
  have hWFG : WF { c with
      conn_id := c.conn_id + 1
      conn_length := c.conn_length + 10
      conn_list := some (slots c ++ List.replicate 10 none) } := by
    have hlen' : (c.conn_list.getD []).length = c.conn_length := hlen
    simp [WF, slots, hlen']
  have hfG : firstFreeIdx (slots { c with
      conn_id := c.conn_id + 1
      conn_length := c.conn_length + 10
      conn_list := some (slots c ++ List.replicate 10 none) }) = some (slots c).length := by
    show firstFreeIdx (slots c ++ List.replicate 10 none) = some (slots c).length
    rw [show List.replicate 10 (none : Slot) = none :: List.replicate 9 none from rfl]
    exact firstFreeIdx_append_free hf _
  rw [registerGo_place true 1 (by decide) _ _ _ hWFG hfG]
  rw [show slots { c with
        conn_id := c.conn_id + 1
        conn_length := c.conn_length + 10
        conn_list := some (slots c ++ List.replicate 10 none) } =
      slots c ++ List.replicate 10 none from rfl]
  rw [show List.replicate 10 (none : Slot) = none :: List.replicate 9 none from rfl,
    set_append_length]

/-- Complete characterization of `nopoll_ctx_register_conn` (after the NULL
guard) on a well-formed context: with a tombstone available the connection
gets id `conn_id` and the counter advances by one; with no tombstone the
growth path re-enters the function, so the connection gets id
`conn_id + 1` and the counter advances by two; a failed growth allocation
leaves the connection untracked, `conn_list` NULL, `conn_length` already
increased and the critical log emitted. -/
theorem registerGo_spec (allocOk : Bool) (ctx : noPollCtx) (conn : noPollConn)
    (hWF : WF ctx) :
    registerGo 2 allocOk ctx conn =
      match firstFreeIdx (slots ctx), allocOk with
      | some i, _ => some
          ({ ctx with
               conn_id := ctx.conn_id + 1
               conn_num := ctx.conn_num + 1
               conn_list := some ((slots ctx).set i (some ctx.conn_id)) },
           { conn with id := ctx.conn_id })
      | none, true => some
          ({ ctx with
               conn_id := ctx.conn_id + 2
               conn_length := ctx.conn_length + 10
               conn_num := ctx.conn_num + 1
               conn_list := some (slots ctx ++ some (ctx.conn_id + 1) :: List.replicate 9 none) },
           { conn with id := ctx.conn_id + 1 })
      | none, false => some
          ({ ctx with
               conn_id := ctx.conn_id + 1
               conn_length := ctx.conn_length + 10
               conn_list := none
               logs := ctx.logs + 1 },
           { conn with id := ctx.conn_id }) := by
  cases hf : firstFreeIdx (slots ctx) with
  | some i =>
    cases allocOk <;> exact registerGo_place _ 2 (by decide) ctx conn i hWF hf
  | none =>
    cases allocOk with
    | false => exact registerGo_grow_fail 2 (by decide) ctx conn hWF hf
    | true => exact registerGo_grow_succeed ctx conn hWF hf

/-! ## Preservation of the registry invariants -/

theorem WF_of_parts {c : noPollCtx} {l : List Slot} (hcl : c.conn_list = some l)
    (hlen : l.length = c.conn_length) : WF c := by
  simp [WF, slots, hcl, hlen]

theorem filterMap_id_replicate_none :
    ∀ n : Nat, (List.replicate n (none : Slot)).filterMap id = []
  | 0 => rfl
  | n + 1 => by
    rw [List.replicate_succ]
    simp [filterMap_id_replicate_none n]

theorem unregScan_cases (ctx ctx' : noPollCtx) (cid : Nat) (hWF : WF ctx)
    (h : unregScan cid ctx.conn_length 0 ctx = some ctx') :
    ctx' = ctx ∨ ∃ l', unregScanL cid (slots ctx) = some (some l') ∧
      ctx' = { ctx with conn_num := ctx.conn_num - 1, conn_list := some l' } := by
  rw [unregScan_top cid ctx hWF] at h
  rcases hu : unregScanL cid (slots ctx) with _ | ⟨_ | l'⟩ <;> rw [hu] at h
  · simp at h
  · left
    simpa using h.symm
  · right
    refine ⟨l', rfl, ?_⟩
    simpa using h.symm

theorem registerGo_true_inv (ctx ctx' : noPollCtx) (conn conn' : noPollConn)
    (hWF : WF ctx) (hnum : ctx.conn_num = ((liveIds ctx).length : Int))
    (h : registerGo 2 true ctx conn = some (ctx', conn')) :
    WF ctx' ∧ ctx'.conn_num = ((liveIds ctx').length : Int) := by
  have hlen : (slots ctx).length = ctx.conn_length := hWF
  rw [registerGo_spec true ctx conn hWF] at h
  cases hf : firstFreeIdx (slots ctx) with
  | some i =>
    rw [hf] at h
    simp only [Option.some.injEq, Prod.mk.injEq] at h
    obtain ⟨rfl, rfl⟩ := h.symm.imp Eq.symm Eq.symm
    constructor
    · exact WF_of_parts rfl (by simp [hlen])
    · have hslot : (slots ctx)[i]? = some none := firstFreeIdx_getElem hf
      have hcount := filterMap_set_some hslot ctx.conn_id
      show ctx.conn_num + 1 = _
      have hl' : liveIds { ctx with
          conn_id := ctx.conn_id + 1
          conn_num := ctx.conn_num + 1
          conn_list := some ((slots ctx).set i (some ctx.conn_id)) } =
          ((slots ctx).set i (some ctx.conn_id)).filterMap id := by
        simp [liveIds, slots]
      rw [hl', hcount, hnum,
        show liveIds ctx = (slots ctx).filterMap id from rfl]
      push_cast
      ring
  | none =>
    rw [hf] at h
    simp only [Option.some.injEq, Prod.mk.injEq] at h
    obtain ⟨rfl, rfl⟩ := h.symm.imp Eq.symm Eq.symm
    constructor
    · exact WF_of_parts rfl (by simp [hlen])
    · show ctx.conn_num + 1 = _
      have hl' : liveIds { ctx with
          conn_id := ctx.conn_id + 2
          conn_length := ctx.conn_length + 10
          conn_num := ctx.conn_num + 1
          conn_list := some (slots ctx ++ some (ctx.conn_id + 1) :: List.replicate 9 none) } =
          (slots ctx).filterMap id ++
            (ctx.conn_id + 1) :: (List.replicate 9 (none : Slot)).filterMap id := by
        simp [liveIds, slots, List.filterMap_append]
      rw [hl', filterMap_id_replicate_none, hnum,
        show liveIds ctx = (slots ctx).filterMap id from rfl]
      simp only [List.length_append, List.length_cons, List.length_nil]
      push_cast
      ring

theorem unregScan_inv (ctx ctx' : noPollCtx) (cid : Nat) (hWF : WF ctx)
    (hnum : ctx.conn_num = ((liveIds ctx).length : Int))
    (h : unregScan cid ctx.conn_length 0 ctx = some ctx') :
    WF ctx' ∧ ctx'.conn_num = ((liveIds ctx').length : Int) := by
  rcases unregScan_cases ctx ctx' cid hWF h with rfl | ⟨l', hu, rfl⟩
  · exact ⟨hWF, hnum⟩
  · have hlen : (slots ctx).length = ctx.conn_length := hWF
    obtain ⟨hl1, hl2⟩ := unregScanL_spec hu
    constructor
    · exact WF_of_parts rfl (by simp [hl1, hlen])
    · show ctx.conn_num - 1 = _
      have hl' : liveIds { ctx with
          conn_num := ctx.conn_num - 1
          conn_list := some l' } = l'.filterMap id := by
        simp [liveIds, slots]
      rw [hl', hnum]
      have : ((liveIds ctx).length : Int) = (l'.filterMap id).length + 1 := by
        rw [show liveIds ctx = (slots ctx).filterMap id from rfl, ← hl2]
        push_cast
        ring
      rw [this]
      ring

/-- The two registry invariants hold in every reachable context: the slot
table matches `conn_length`, and `conn_num` counts the live slots. -/
theorem reachable_inv (ctx : noPollCtx) (h : ReachableCtx ctx) :
    WF ctx ∧ ctx.conn_num = ((liveIds ctx).length : Int) := by
  induction h with
  | new => exact ⟨rfl, rfl⟩
  | register c c' conn conn' _ hstep ih =>
    exact registerGo_true_inv c c' conn conn' ih.1 ih.2 hstep
  | unregister c c' conn _ hstep ih =>
    exact unregScan_inv c c' conn.id ih.1 ih.2 hstep

/-! ## Monotonicity of the id counter over operation sequences -/

theorem registerGo_dead (n : Nat) (a : Bool) (ctx : noPollCtx) (conn : noPollConn)
    (hcl : ctx.conn_list = none) (hpos : 0 < ctx.conn_length) :
    registerGo (n + 1) a ctx conn = none := by
  obtain ⟨m, hm⟩ := Nat.exists_eq_succ_of_ne_zero (Nat.pos_iff_ne_zero.mp hpos)
  rw [registerGo_succ,
    show ({ ctx with conn_id := ctx.conn_id + 1 } : noPollCtx).conn_length
      = ctx.conn_length from rfl, hm]
  simp [regScan, readSlot, hcl]

theorem unregScan_dead (cid : Nat) (ctx : noPollCtx)
    (hcl : ctx.conn_list = none) (hpos : 0 < ctx.conn_length) :
    unregScan cid ctx.conn_length 0 ctx = none := by
  obtain ⟨m, hm⟩ := Nat.exists_eq_succ_of_ne_zero (Nat.pos_iff_ne_zero.mp hpos)
  rw [hm]
  simp [unregScan, readSlot, hcl]

theorem runOps_dead (ops : List RegistryOp) (ctx ctx' : noPollCtx) (ids : List Nat)
    (hcl : ctx.conn_list = none) (hpos : 0 < ctx.conn_length)
    (h : runOps ops ctx = some (ctx', ids)) : ctx' = ctx ∧ ids = [] := by
  cases ops with
  | nil =>
    simp only [runOps, Option.some.injEq, Prod.mk.injEq] at h
    exact ⟨h.1.symm, h.2.symm⟩
  | cons op ops =>
    exfalso
    cases op with
    | register a conn =>
      rw [show runOps (RegistryOp.register a conn :: ops) ctx =
            (runOp (RegistryOp.register a conn) ctx).bind fun pc =>
              (runOps ops pc.1).map fun pc' => (pc'.1, pc.2.toList ++ pc'.2) from rfl,
        show runOp (RegistryOp.register a conn) ctx =
            (registerGo 2 a ctx conn).map fun p => (p.1, some p.2.id) from rfl,
        show (2 : Nat) = 1 + 1 from rfl,
        registerGo_dead 1 a ctx conn hcl hpos] at h
      simp at h
    | unregister conn =>
      rw [show runOps (RegistryOp.unregister conn :: ops) ctx =
            (runOp (RegistryOp.unregister conn) ctx).bind fun pc =>
              (runOps ops pc.1).map fun pc' => (pc'.1, pc.2.toList ++ pc'.2) from rfl,
        show runOp (RegistryOp.unregister conn) ctx =
            (unregScan conn.id ctx.conn_length 0 ctx).map fun c => (c, none) from rfl,
        unregScan_dead conn.id ctx hcl hpos] at h
      simp at h

theorem runOps_bounds (ops : List RegistryOp) :
    ∀ (ctx ctx' : noPollCtx) (ids : List Nat), WF ctx →
      runOps ops ctx = some (ctx', ids) →
      ctx.conn_id ≤ ctx'.conn_id ∧
        (∀ i ∈ ids, ctx.conn_id ≤ i ∧ i < ctx'.conn_id) ∧
        List.Pairwise (· < ·) ids := by
  induction ops with
  | nil =>
    intro ctx ctx' ids _ h
    simp only [runOps, Option.some.injEq, Prod.mk.injEq] at h
    obtain ⟨rfl, rfl⟩ := h
    simp
  | cons op ops ih =>
    intro ctx ctx' ids hWF h
    simp only [runOps] at h
    rcases hop : runOp op ctx with _ | ⟨c1, i?⟩
    · rw [hop] at h; simp at h
    rw [hop] at h
    simp only [Option.some_bind] at h
    rcases hrest : runOps ops c1 with _ | ⟨c2, ids2⟩
    · rw [hrest] at h; simp at h
    rw [hrest] at h
    simp only [Option.map_some', Option.some.injEq, Prod.mk.injEq] at h
    obtain ⟨rfl, rfl⟩ := h
    cases op with
    | unregister conn =>
      simp only [runOp] at hop
      rcases hu : unregScan conn.id ctx.conn_length 0 ctx with _ | c
      · rw [hu] at hop; simp at hop
      rw [hu] at hop
      simp only [Option.map_some', Option.some.injEq, Prod.mk.injEq] at hop
      obtain ⟨rfl, rfl⟩ := hop
      have hcase := unregScan_cases ctx c conn.id hWF hu
      have hid : c.conn_id = ctx.conn_id := by
        rcases hcase with rfl | ⟨l', _, rfl⟩ <;> rfl
      have hWFc : WF c := by
        rcases hcase with rfl | ⟨l', hu', rfl⟩
        · exact hWF
        · exact WF_of_parts rfl (by rw [(unregScanL_spec hu').1]; exact hWF)
      obtain ⟨hle, hin, hpw⟩ := ih c c2 ids2 hWFc hrest
      refine ⟨by omega, ?_, by simpa using hpw⟩
      intro i hi
      simp only [Option.toList_none, List.nil_append] at hi
      have := hin i hi
      omega
    | register a conn =>
      simp only [runOp] at hop
      rcases hr : registerGo 2 a ctx conn with _ | ⟨p1, p2⟩
      · rw [hr] at hop; simp at hop
      rw [hr] at hop
      simp only [Option.map_some', Option.some.injEq, Prod.mk.injEq] at hop
      obtain ⟨rfl, rfl⟩ := hop
      rw [registerGo_spec a ctx conn hWF] at hr
      cases hf : firstFreeIdx (slots ctx) with
      | some i =>
        rw [hf] at hr
        have hlen : (slots ctx).length = ctx.conn_length := hWF
        cases a <;>
        · simp only [Option.some.injEq, Prod.mk.injEq] at hr
          obtain ⟨rfl, rfl⟩ := hr.imp Eq.symm Eq.symm
          have hWFp : WF ({ ctx with
              conn_id := ctx.conn_id + 1
              conn_num := ctx.conn_num + 1
              conn_list := some ((slots ctx).set i (some ctx.conn_id)) } : noPollCtx) :=
            WF_of_parts rfl (by simp [hlen])
          obtain ⟨hle, hin, hpw⟩ := ih _ c2 ids2 hWFp hrest
          have hle' : ctx.conn_id + 1 ≤ c2.conn_id := hle
          have hin' : ∀ j ∈ ids2, ctx.conn_id + 1 ≤ j ∧ j < c2.conn_id := hin
          refine ⟨by omega, ?_, ?_⟩
          · intro j hj
            simp only [Option.toList_some, List.cons_append, List.nil_append,
              List.mem_cons] at hj
            rcases hj with rfl | hj
            · exact ⟨le_refl _, by omega⟩
            · have := hin' j hj
              exact ⟨by omega, this.2⟩
          · simp only [Option.toList_some, List.cons_append, List.nil_append,
              List.pairwise_cons]
            exact ⟨fun j hj => by have := hin' j hj; omega, hpw⟩
      | none =>
        rw [hf] at hr
        have hlen : (slots ctx).length = ctx.conn_length := hWF
        cases a with
        | true =>
          simp only [Option.some.injEq, Prod.mk.injEq] at hr
          obtain ⟨rfl, rfl⟩ := hr.imp Eq.symm Eq.symm
          have hWFp : WF ({ ctx with
              conn_id := ctx.conn_id + 2
              conn_length := ctx.conn_length + 10
              conn_num := ctx.conn_num + 1
              conn_list := some (slots ctx ++ some (ctx.conn_id + 1) ::
                List.replicate 9 none) } : noPollCtx) :=
            WF_of_parts rfl (by simp [hlen])
          obtain ⟨hle, hin, hpw⟩ := ih _ c2 ids2 hWFp hrest
          have hle' : ctx.conn_id + 2 ≤ c2.conn_id := hle
          have hin' : ∀ j ∈ ids2, ctx.conn_id + 2 ≤ j ∧ j < c2.conn_id := hin
          refine ⟨by omega, ?_, ?_⟩
          · intro j hj
            simp only [Option.toList_some, List.cons_append, List.nil_append,
              List.mem_cons] at hj
            rcases hj with rfl | hj
            · exact ⟨by omega, by omega⟩
            · have := hin' j hj
              exact ⟨by omega, this.2⟩
          · simp only [Option.toList_some, List.cons_append, List.nil_append,
              List.pairwise_cons]
            exact ⟨fun j hj => by have := hin' j hj; omega, hpw⟩
        | false =>
          simp only [Option.some.injEq, Prod.mk.injEq] at hr
          obtain ⟨rfl, rfl⟩ := hr.imp Eq.symm Eq.symm
          obtain ⟨rfl, rfl⟩ := runOps_dead ops _ c2 ids2 rfl
            (by show 0 < ctx.conn_length + 10; omega) hrest
          simp only [Option.toList_some, List.cons_append, List.nil_append]
          refine ⟨by omega, ?_, by simp⟩
          intro j hj
          simp only [List.mem_singleton] at hj
          subst hj
          exact ⟨le_refl _, by omega⟩


theorem unregScan_fields : ∀ (fuel k cid : Nat) (ctx ctx' : noPollCtx),
    unregScan cid fuel k ctx = some ctx' →
    ctx'.conn_length = ctx.conn_length ∧ ctx'.conn_id = ctx.conn_id
  | 0, k, cid, ctx, ctx', h => by
    simp only [unregScan, Option.some.injEq] at h
    subst h
    exact ⟨rfl, rfl⟩
  | fuel + 1, k, cid, ctx, ctx', h => by
    simp only [unregScan] at h
    rcases hr : readSlot ctx k with _ | ⟨_ | sid⟩ <;> rw [hr] at h
    · simp at h
    · simp at h
    · dsimp only at h
      by_cases hc : sid = cid
      · rw [if_pos hc] at h
        simp only [Option.some.injEq] at h
        subst h
        exact ⟨rfl, rfl⟩
      · rw [if_neg hc] at h
        exact unregScan_fields fuel (k + 1) cid ctx ctx' h

/-! ## The claims -/

/-- C1: the claim says `unregister(ctx, conn)` with an unknown id is a
silent no-op and with a registered id tombstones that slot.  The code
instead dereferences `ctx->conn_list[iterator]->id` without a NULL check,
so as soon as the scan passes a tombstone bucket it dereferences a NULL
pointer (modelled as the `none` result): below, from the reachable context
obtained by register, register, unregister-first (slot table
`[NULL, id 3, NULL ×8]`), unregistering the unknown id 7 and unregistering
the registered id 3 both hit the NULL dereference instead of behaving as
claimed. -/
theorem C1_unregister_null_deref :
    (runOps [RegistryOp.register true ⟨0⟩, RegistryOp.register true ⟨0⟩,
        RegistryOp.unregister ⟨2⟩] nopoll_ctx_new).map
        (fun p => (nopoll_ctx_unregister_conn (some p.1) (some ⟨7⟩),
          nopoll_ctx_unregister_conn (some p.1) (some ⟨3⟩))) =
      some (none, none) := by decide

/-- C2: the claim's scenario — register 10 connections (they get ids 2..11
in buckets 0..9), then unregister the 5 with even index (ids 2, 4, 6, 8,
10) — crashes in the code: after the first unregister leaves a tombstone in
bucket 0, the second unregister dereferences that NULL bucket, so the run
aborts (`none`) and `for_each`/`count` are never reached. -/
theorem C2_registry_scenario_crashes :
    (runOps (List.replicate 10 (RegistryOp.register true ⟨0⟩)) nopoll_ctx_new).map
        (fun p => (p.1.conn_num, p.2)) =
      some (10, [2, 3, 4, 5, 6, 7, 8, 9, 10, 11]) ∧
    runOps (List.replicate 10 (RegistryOp.register true ⟨0⟩) ++
        [RegistryOp.unregister ⟨2⟩, RegistryOp.unregister ⟨4⟩,
         RegistryOp.unregister ⟨6⟩, RegistryOp.unregister ⟨8⟩,
         RegistryOp.unregister ⟨10⟩]) nopoll_ctx_new = none := by decide

/-- C3 counterexample: on a fresh context (next id counter = 1) a
successful registration assigns `conn.id = 2` and leaves the counter at 3
(the growth path re-enters `nopoll_ctx_register_conn`, which assigns and
increments a second time), refuting the claim that the connection receives
the current counter value (1) and that the counter advances by exactly
one. -/
theorem C3_counterexample :
    nopoll_ctx_new.conn_id = 1 ∧
    (registerGo 2 true nopoll_ctx_new ⟨0⟩).map (fun p => (p.2.id, p.1.conn_id)) =
      some (2, 3) := by decide

/-- C3 (amended): on a well-formed context a successful registration
increments the live count, and places the connection in the lowest-index
tombstone bucket.  When a tombstone exists, `conn.id` receives the current
counter value and the counter advances by exactly one; when the registry
is full the growth path re-enters the function, so `conn.id` receives
`counter + 1` and the counter advances by two. -/
theorem C3_register_assigns_id (ctx : noPollCtx) (conn : noPollConn) (hWF : WF ctx) :
    ∃ ctx' conn', registerGo 2 true ctx conn = some (ctx', conn') ∧
      ctx'.conn_num = ctx.conn_num + 1 ∧
      match firstFreeIdx (slots ctx) with
      | some i => conn'.id = ctx.conn_id ∧ ctx'.conn_id = ctx.conn_id + 1 ∧
          slots ctx' = (slots ctx).set i (some conn'.id)
      | none => conn'.id = ctx.conn_id + 1 ∧ ctx'.conn_id = ctx.conn_id + 2 ∧
          slots ctx' = slots ctx ++ some conn'.id :: List.replicate 9 none := by
  rw [registerGo_spec true ctx conn hWF]
  cases hf : firstFreeIdx (slots ctx) with
  | some i => exact ⟨_, _, rfl, rfl, rfl, rfl, rfl⟩
  | none => exact ⟨_, _, rfl, rfl, rfl, rfl, rfl⟩

/-- Witness for C3: the amended statement at the concrete two-bucket
context with a tombstone at index 1. -/
theorem C3_register_assigns_id_witness :
    WF ctxOneFree ∧
    (∃ ctx' conn', registerGo 2 true ctxOneFree ⟨0⟩ = some (ctx', conn') ∧
      ctx'.conn_num = ctxOneFree.conn_num + 1 ∧
      match firstFreeIdx (slots ctxOneFree) with
      | some i => conn'.id = ctxOneFree.conn_id ∧ ctx'.conn_id = ctxOneFree.conn_id + 1 ∧
          slots ctx' = (slots ctxOneFree).set i (some conn'.id)
      | none => conn'.id = ctxOneFree.conn_id + 1 ∧ ctx'.conn_id = ctxOneFree.conn_id + 2 ∧
          slots ctx' = slots ctxOneFree ++ some conn'.id :: List.replicate 9 none) :=
  ⟨by decide, C3_register_assigns_id ctxOneFree ⟨0⟩ (by decide)⟩

/-- C4: when no tombstone exists (including the fresh empty registry), the
clearing loop initializes the 10 fresh buckets as tombstones, growth is by
exactly 10 and the retried placement succeeds within one retry (the fuel-2
run completes, placing the connection in the first fresh bucket and
leaving the other 9 as tombstones); moreover a register changes the
capacity by 0 or exactly +10 (so it never decreases), and an unregister
never changes it. -/
theorem C4_growth_by_ten :
    (∀ ctx conn, WF ctx → firstFreeIdx (slots ctx) = none →
      slots (clearLoop 10 ctx.conn_length (growList ctx)) =
        slots ctx ++ List.replicate 10 none ∧
      registerGo 2 true ctx conn =
        some ({ ctx with
                  conn_id := ctx.conn_id + 2
                  conn_length := ctx.conn_length + 10
                  conn_num := ctx.conn_num + 1
                  conn_list := some (slots ctx ++ some (ctx.conn_id + 1) ::
                    List.replicate 9 none) },
              { conn with id := ctx.conn_id + 1 })) ∧
    (∀ a ctx conn ctx' conn', WF ctx → registerGo 2 a ctx conn = some (ctx', conn') →
      ctx.conn_length ≤ ctx'.conn_length ∧
        (ctx'.conn_length = ctx.conn_length ∨
          ctx'.conn_length = ctx.conn_length + 10)) ∧
    (∀ fuel k cid ctx ctx', unregScan cid fuel k ctx = some ctx' →
      ctx'.conn_length = ctx.conn_length) := by
  refine ⟨?_, ?_, ?_⟩
  · intro ctx conn hWF hfull
    constructor
    · rw [growClear_spec ctx hWF]
      rfl
    · rw [registerGo_spec true ctx conn hWF, hfull]
  · intro a ctx conn ctx' conn' hWF h
    rw [registerGo_spec a ctx conn hWF] at h
    cases hf : firstFreeIdx (slots ctx) with
    | some i =>
      rw [hf] at h
      cases a <;>
      · simp only [Option.some.injEq, Prod.mk.injEq] at h
        obtain ⟨rfl, rfl⟩ := h.imp Eq.symm Eq.symm
        exact ⟨le_refl _, Or.inl rfl⟩
    | none =>
      rw [hf] at h
      cases a <;>
      · simp only [Option.some.injEq, Prod.mk.injEq] at h
        obtain ⟨rfl, rfl⟩ := h.imp Eq.symm Eq.symm
        exact ⟨by show ctx.conn_length ≤ ctx.conn_length + 10; omega, Or.inr rfl⟩
  · intro fuel k cid ctx ctx' h
    exact (unregScan_fields fuel k cid ctx ctx' h).1

/-- Witness for C4: growth of the fresh empty registry. -/
theorem C4_growth_by_ten_witness :
    WF nopoll_ctx_new ∧ firstFreeIdx (slots nopoll_ctx_new) = none ∧
    (slots (clearLoop 10 nopoll_ctx_new.conn_length (growList nopoll_ctx_new)) =
        slots nopoll_ctx_new ++ List.replicate 10 none ∧
      registerGo 2 true nopoll_ctx_new ⟨0⟩ =
        some ({ nopoll_ctx_new with
                  conn_id := nopoll_ctx_new.conn_id + 2
                  conn_length := nopoll_ctx_new.conn_length + 10
                  conn_num := nopoll_ctx_new.conn_num + 1
                  conn_list := some (slots nopoll_ctx_new ++
                    some (nopoll_ctx_new.conn_id + 1) :: List.replicate 9 none) },
              { id := nopoll_ctx_new.conn_id + 1 })) :=
  ⟨by decide, by decide, C4_growth_by_ten.1 nopoll_ctx_new ⟨0⟩ (by decide) (by decide)⟩

/-- C5: when the registry is full (no tombstone) and the growth
reallocation fails, registration returns normally with the live count
unchanged, the connection tracked in no bucket (the slot storage is the
NULL result of the failed realloc), and the critical log emitted. -/
theorem C5_alloc_failure (ctx : noPollCtx) (conn : noPollConn) (hWF : WF ctx)
    (hfull : firstFreeIdx (slots ctx) = none) :
    ∃ ctx' conn', registerGo 2 false ctx conn = some (ctx', conn') ∧
      ctx'.conn_num = ctx.conn_num ∧
      (∀ i, readSlot ctx' i ≠ some (some conn'.id)) ∧
      ctx'.logs = ctx.logs + 1 := by
  rw [registerGo_spec false ctx conn hWF, hfull]
  refine ⟨_, _, rfl, rfl, ?_, rfl⟩
  intro i
  simp [readSlot]

/-- Witness for C5: allocation failure while registering on the fresh
(full, zero-capacity) registry. -/
theorem C5_alloc_failure_witness :
    WF nopoll_ctx_new ∧ firstFreeIdx (slots nopoll_ctx_new) = none ∧
    (∃ ctx' conn', registerGo 2 false nopoll_ctx_new ⟨0⟩ = some (ctx', conn') ∧
      ctx'.conn_num = nopoll_ctx_new.conn_num ∧
      (∀ i, readSlot ctx' i ≠ some (some conn'.id)) ∧
      ctx'.logs = nopoll_ctx_new.logs + 1) :=
  ⟨by decide, by decide, C5_alloc_failure nopoll_ctx_new ⟨0⟩ (by decide) (by decide)⟩

/-- C6 counterexample: releasing a context whose reference count is
already zero is not a state-preserving no-op — the count is still
decremented, to -1. -/
theorem C6_counterexample :
    nopoll_ctx_unref (some ctxRefsZero) ≠ some ctxRefsZero ∧
    nopoll_ctx_unref (some ctxRefsZero) = some { ctxRefsZero with refs := -1 } := by
  decide

/-- C6 (amended): `acquire` increments the reference count (failing only
on NULL); `release` decrements it and frees the registry storage and the
context exactly when the count transitions to zero (count 1 before the
call); `release` on NULL is a no-op; `release` on any other count —
including a count already at zero — does not free but still decrements
the count (so a zero count becomes -1 rather than being left unchanged). -/
theorem C6_refcount (ctx : noPollCtx) :
    nopoll_ctx_ref (some ctx) = (some { ctx with refs := ctx.refs + 1 }, true) ∧
    nopoll_ctx_ref none = (none, false) ∧
    nopoll_ctx_unref none = none ∧
    (ctx.refs = 1 → nopoll_ctx_unref (some ctx) = none) ∧
    (ctx.refs ≠ 1 → nopoll_ctx_unref (some ctx) = some { ctx with refs := ctx.refs - 1 }) := by
  refine ⟨rfl, rfl, rfl, ?_, ?_⟩
  · intro h1
    simp [nopoll_ctx_unref, h1]
  · intro hne
    have hc : ctx.refs - 1 ≠ 0 := sub_ne_zero.mpr hne
    simp [nopoll_ctx_unref, hc]

/-- Witness for C6: release frees at count 1 (the fresh context) and
decrements without freeing at count 0. -/
theorem C6_refcount_witness :
    nopoll_ctx_new.refs = 1 ∧ nopoll_ctx_unref (some nopoll_ctx_new) = none ∧
    ctxRefsZero.refs ≠ 1 ∧
    nopoll_ctx_unref (some ctxRefsZero) =
      some { ctxRefsZero with refs := ctxRefsZero.refs - 1 } :=
  ⟨rfl, (C6_refcount nopoll_ctx_new).2.2.2.1 rfl, by decide,
    (C6_refcount ctxRefsZero).2.2.2.2 (by decide)⟩

/-- C7: on a well-formed context, `nopoll_ctx_foreach_conn` equals the
first-match search over the live bucket ids in increasing bucket order:
the handler is applied to live buckets in order, iteration halts at the
first bucket on which it returns true and that connection is returned, and
if it never does every live bucket is visited once and NULL is returned
(`List.find?` over `liveIds` is exactly that contract). -/
theorem C7_foreach (α : Type) (ctx : noPollCtx) (f : noPollCtx → Nat → α → Bool)
    (ud : α) (hWF : WF ctx) :
    nopoll_ctx_foreach_conn (some ctx) (some f) ud =
      some ((liveIds ctx).find? fun cid => f ctx cid ud) :=
  foreachScan_top f ud ctx hWF

/-- Witness for C7: searching for id 7 in a table with a tombstone between
two live buckets. -/
theorem C7_foreach_witness :
    WF ctxThreeSlots ∧
    nopoll_ctx_foreach_conn (some ctxThreeSlots)
        (some fun _ cid _ => cid == 7) () =
      some ((liveIds ctxThreeSlots).find? fun cid =>
        (fun (_ : noPollCtx) (cid : Nat) (_ : Unit) => cid == 7) ctxThreeSlots cid ()) :=
  ⟨by decide, C7_foreach Unit ctxThreeSlots (fun _ cid _ => cid == 7) () (by decide)⟩

/-- C8: in every context reachable from `nopoll_ctx_new` by completed
register/unregister calls (growth allocations succeeding), the `conn_num`
field equals the number of non-tombstone buckets, and `nopoll_ctx_conns`
returns exactly that value. -/
theorem C8_live_count (ctx : noPollCtx) (h : ReachableCtx ctx) :
    ctx.conn_num = ((liveIds ctx).length : Int) ∧
    nopoll_ctx_conns (some ctx) = ((liveIds ctx).length : Int) :=
  ⟨(reachable_inv ctx h).2, (reachable_inv ctx h).2⟩

/-- Witness for C8: the invariant at the context reached by one
registration. -/
theorem C8_live_count_witness :
    ctxOneConn.conn_num = ((liveIds ctxOneConn).length : Int) ∧
    nopoll_ctx_conns (some ctxOneConn) = ((liveIds ctxOneConn).length : Int) :=
  C8_live_count ctxOneConn
    (ReachableCtx.register nopoll_ctx_new ctxOneConn ⟨0⟩ ⟨2⟩ ReachableCtx.new (by decide))

/-- C9: over any sequence of register/unregister operations started on a
fresh context that completes normally, the ids assigned to the registered
connections are pairwise strictly increasing in assignment order (hence
pairwise distinct and never reused, even after unregistrations), every
assigned id stays below the final counter, and the counter never
decreases. -/
theorem C9_ids_strictly_increasing (ops : List RegistryOp) (ctx' : noPollCtx)
    (ids : List Nat) (h : runOps ops nopoll_ctx_new = some (ctx', ids)) :
    List.Pairwise (· < ·) ids ∧ (∀ i ∈ ids, i < ctx'.conn_id) ∧
      nopoll_ctx_new.conn_id ≤ ctx'.conn_id := by
  obtain ⟨hle, hin, hpw⟩ := runOps_bounds ops nopoll_ctx_new ctx' ids rfl h
  exact ⟨hpw, fun i hi => (hin i hi).2, hle⟩

/-- Witness for C9: register, register, unregister, register assigns the
strictly increasing ids 2, 3, 4 (id 4 reuses the freed bucket but not the
freed id). -/
theorem C9_ids_strictly_increasing_witness :
    List.Pairwise (· < ·) [2, 3, 4] ∧
    (∀ i ∈ [2, 3, 4], i < ctxAfterFour.conn_id) ∧
    nopoll_ctx_new.conn_id ≤ ctxAfterFour.conn_id :=
  C9_ids_strictly_increasing
    [RegistryOp.register true ⟨0⟩, RegistryOp.register true ⟨0⟩,
      RegistryOp.unregister ⟨2⟩, RegistryOp.register true ⟨0⟩]
    ctxAfterFour [2, 3, 4] (by decide)

/-- C10: every NULL-guarded entry point rejects NULL required arguments
with no state change: register and unregister return their arguments
untouched, `nopoll_ctx_ref` returns false touching no count, and
`nopoll_ctx_foreach_conn` returns NULL for a NULL context or handler (for
every handler, so no handler is invoked). -/
theorem C10_null_guards :
    (∀ (a : Bool) (conn? : Option noPollConn),
      nopoll_ctx_register_conn a none conn? = some (none, conn?)) ∧
    (∀ (a : Bool) (ctx : noPollCtx),
      nopoll_ctx_register_conn a (some ctx) none = some (some ctx, none)) ∧
    (∀ conn? : Option noPollConn,
      nopoll_ctx_unregister_conn none conn? = some none) ∧
    (∀ ctx : noPollCtx,
      nopoll_ctx_unregister_conn (some ctx) none = some (some ctx)) ∧
    nopoll_ctx_ref none = (none, false) ∧
    (∀ (α : Type) (f : noPollCtx → Nat → α → Bool) (ud : α),
      nopoll_ctx_foreach_conn none (some f) ud = some none) ∧
    (∀ (α : Type) (ctx : noPollCtx) (ud : α),
      nopoll_ctx_foreach_conn (some ctx) none ud = some none) := by
  refine ⟨?_, ?_, ?_, ?_, rfl, ?_, ?_⟩ <;> intros <;> rfl
